import Mathlib

/-!
Shallow embedding of the PubMed-ChemInsight core pipeline
(`CompoundResearchHelper.py`, `BioInfoRetriever.py`, `app.py`).

Strings are Lean `String`s manipulated through their character lists.
Python's character classes are modelled on the ASCII plane:
`str.isalnum` as `Char.isAlphanum`, `str.isspace` as membership in the
ASCII whitespace set, regex `\w` as alphanumeric-or-underscore and
`\d` as ASCII digits.  Remote calls are modelled by passing the remote
response (or a per-attempt outcome oracle) as an explicit argument.
-/

namespace ChemInsight

/-- ASCII model of Python `str.isalnum` for a single character. -/
def pyIsAlnum (c : Char) : Bool := c.isAlphanum

/-- ASCII model of Python `str.isspace` for a single character. -/
def pyIsSpace (c : Char) : Bool :=
  c == ' ' || c == '\t' || c == '\n' || c == '\x0d' || c == '\x0b' || c == '\x0c'

/-- Model of the regex class `\w` (word character): alphanumeric or underscore. -/
def pyWordChar (c : Char) : Bool := pyIsAlnum c || c == '_'

/-- Model of Python `str.lower` on the ASCII plane. -/
def pyLowerChar (c : Char) : Char :=
  if 'A' ≤ c ∧ c ≤ 'Z' then Char.ofNat (c.toNat + 32) else c

/-- Lowercase an entire string (Python `str.lower`, ASCII model). -/
def pyLower (s : String) : String := ⟨s.data.map pyLowerChar⟩

/-- Model of Python `str.strip`: drop leading and trailing whitespace. -/
def pyStrip (s : String) : String :=
  ⟨((s.data.dropWhile pyIsSpace).reverse.dropWhile pyIsSpace).reverse⟩

/-- Embedding of `CompoundResearchHelper._clean_text`:
`"".join(c for c in text if c.isalnum() or c.isspace())`. -/
def clean_text (text : String) : String :=
  ⟨text.data.filter (fun c => pyIsAlnum c || pyIsSpace c)⟩

/-- Character-level worker for `_escape_pubmed_query`:
`re.sub(r"([^\w\s])", r"\\\1", term)` prefixes every character that is
neither a word character nor whitespace with a backslash. -/
def escapeChars : List Char → List Char
  | [] => []
  | c :: cs =>
    if pyWordChar c || pyIsSpace c then c :: escapeChars cs
    else '\\' :: c :: escapeChars cs

/-- Embedding of `CompoundResearchHelper._escape_pubmed_query`. -/
def escape_pubmed_query (term : String) : String := ⟨escapeChars term.data⟩

/-- Embedding of the clause `f'"{clean}"[{field}]'` built in
`get_batch_query` for one term and one field. -/
def fieldClause (cleanTerm field : String) : String :=
  "\"" ++ cleanTerm ++ "\"[" ++ field ++ "]"

/-- Embedding of `CompoundResearchHelper.get_batch_query`: for each term,
one clause per field over the escaped cleaned term, all OR-joined. -/
def get_batch_query (terms fields : List String) : String :=
  String.intercalate " OR "
    (terms.flatMap (fun t =>
      fields.map (fun f => fieldClause (escape_pubmed_query (clean_text t)) f)))

/-- Embedding of the Python chunking generator
`(xs[i : i + batch_size] for i in range(0, len(xs), batch_size))`
with the hard-coded `batch_size = 5` of `process_compound_and_targets`. -/
def chunk5 {α : Type} : List α → List (List α)
  | [] => []
  | [a] => [[a]]
  | [a, b] => [[a, b]]
  | [a, b, c] => [[a, b, c]]
  | [a, b, c, d] => [[a, b, c, d]]
  | a :: b :: c :: d :: e :: rest => [a, b, c, d, e] :: chunk5 rest

/-- Allow-list of recognized publication types in
`_format_article_type_filter`. -/
def allowedArticleTypes : List String := ["review", "clinical trial", "case reports"]

/-- Embedding of the membership test `t.lower() in allowed`. -/
def articleTypeAllowed (t : String) : Bool := allowedArticleTypes.contains (pyLower t)

/-- Embedding of `CompoundResearchHelper._format_article_type_filter`. -/
def format_article_type_filter (types : List String) : String :=
  let valid := types.filter articleTypeAllowed
  if valid.isEmpty then ""
  else " AND (" ++ String.intercalate " OR " (valid.map (· ++ "[Publication Type]")) ++ ")"

/-- Embedding of the query-construction loop of
`CompoundResearchHelper.process_compound_and_targets` (the list `queries`
accumulated before any fetch): compounds are chunked in groups of five;
with genes present, each compound chunk is AND-combined with each gene
chunk, otherwise one query per compound chunk. -/
def buildQueries (compounds genes : List String)
    (additional_condition article_type_condition : String)
    (fields : List String) : List String :=
  (chunk5 compounds).flatMap (fun c_batch =>
    let compound_query := get_batch_query c_batch fields
    if genes.isEmpty then
      ["(" ++ compound_query ++ ")" ++ additional_condition ++ article_type_condition]
    else
      (chunk5 genes).map (fun g_batch =>
        "((" ++ compound_query ++ ") AND (" ++ get_batch_query g_batch ["Title/Abstract"]
          ++ "))" ++ additional_condition ++ article_type_condition))

/-- Embedding of the fixed article schema built in
`CompoundResearchHelper.fetch_articles` (`keys_to_keep`); `year` has
already been normalized to an integer or absent. -/
structure ArticleRecord where
  title : String
  pmid : String
  url : String
  authors : List String
  doi : String
  pmc : String
  issn : String
  mesh : List String
  chemicals : List String
  journal : String
  abstract : String
  year : Option Int
  publication_types : List String
deriving DecidableEq, Repr

/-- Helper to build a record whose fields other than title, pmid and year
are empty. -/
def mkRecord (title pmid : String) (year : Option Int) : ArticleRecord :=
  ⟨title, pmid, "", [], "", "", "", [], [], "", "", year, []⟩

/-- Raw year value as delivered by the record parser before
normalization: absent, an integer, or a string. -/
inductive RawYear : Type
  | noneVal : RawYear
  | intVal (n : Int) : RawYear
  | strVal (s : String) : RawYear
deriving DecidableEq, Repr

/-- Value of the leading four characters of `s` when they are all ASCII
digits (the regex `re.match(r"^\d{4}", s)` followed by `int`). -/
def leadingFourDigits (s : String) : Option Int :=
  match s.data with
  | a :: b :: c :: d :: _ =>
    if a.isDigit && b.isDigit && c.isDigit && d.isDigit then
      some ((((((a.toNat - 48) * 10 + (b.toNat - 48)) * 10 + (c.toNat - 48)) * 10
        + (d.toNat - 48)) : Nat) : Int)
    else none
  | _ => none

/-- Embedding of the year-normalization branch of
`CompoundResearchHelper.fetch_articles`: `None`/empty-string become
absent, integers are kept, and a string is matched against a leading
four-digit run, yielding absent when the match fails.  The function is
total, so normalization never raises. -/
def normalizeYear : RawYear → Option Int
  | RawYear.noneVal => none
  | RawYear.intVal n => some n
  | RawYear.strVal s => if s = "" then none else leadingFourDigits s

/-- Worker for `dropDupByPmid`: `seen` is the set of pmids of records
already emitted. -/
def dropDupByPmidAux (seen : List String) : List ArticleRecord → List ArticleRecord
  | [] => []
  | r :: rs =>
    if r.pmid ∈ seen then dropDupByPmidAux seen rs
    else r :: dropDupByPmidAux (r.pmid :: seen) rs

/-- Embedding of `df.drop_duplicates(subset=["pmid"])` (default
`keep="first"`): keep the first record of each pmid, in input order. -/
def dropDupByPmid (records : List ArticleRecord) : List ArticleRecord :=
  dropDupByPmidAux [] records

/-- Order on year values after `pd.to_numeric(..., errors="coerce")`:
an absent year becomes `NaN`, which pandas places last when sorting
descending; modelled as the bottom element. -/
def optYearLe : Option Int → Option Int → Bool
  | none, _ => true
  | some _, none => false
  | some x, some y => x ≤ y

/-- Year-descending order on records (absent years last):
`yearDescLe a b` holds when `a` may come before `b` in the output of
`sort_values(by="year", ascending=False)`. -/
def yearDescLe (a b : ArticleRecord) : Prop := optYearLe b.year a.year = true

instance : DecidableRel yearDescLe :=
  fun a b => inferInstanceAs (Decidable (optYearLe b.year a.year = true))

theorem optYearLe_total (x y : Option Int) : optYearLe x y = true ∨ optYearLe y x = true := by
  cases x with
  | none => exact Or.inl rfl
  | some a =>
    cases y with
    | none => exact Or.inr rfl
    | some b =>
      simp only [optYearLe, decide_eq_true_eq]
      omega

theorem optYearLe_trans {x y z : Option Int} (h1 : optYearLe x y = true)
    (h2 : optYearLe y z = true) : optYearLe x z = true := by
  cases x with
  | none => rfl
  | some a =>
    cases y with
    | none => exact absurd h1 (by simp [optYearLe])
    | some b =>
      cases z with
      | none => exact absurd h2 (by simp [optYearLe])
      | some c =>
        simp only [optYearLe, decide_eq_true_eq] at h1 h2 ⊢
        omega

instance : IsTotal ArticleRecord yearDescLe :=
  ⟨fun a b => optYearLe_total b.year a.year⟩

instance : IsTrans ArticleRecord yearDescLe :=
  ⟨fun _ _ _ hab hbc => optYearLe_trans hbc hab⟩

/-- Embedding of `CompoundResearchHelper.select_top_articles`:
deduplicate by pmid, sort by year descending (absent years last), and
take the first `n_articles` rows when `n_articles > 0`, otherwise
return an empty frame.  `pandas` sorts with an unstable quicksort; the
embedding uses a concrete sort producing the same order class. -/
def select_top_articles (records : List ArticleRecord) (n_articles : Int) :
    List ArticleRecord :=
  let deduped := dropDupByPmid records
  let sorted := List.insertionSort yearDescLe deduped
  if n_articles > 0 then sorted.take n_articles.toNat else []

/-- Embedding of the retry loop of `SynonymRetriever._fetch_data`.
`outcome i` is the result of HTTP attempt number `i` (`none` = a
`requests.RequestException`).  Returns the decoded body (or `none`
after exhausting all attempts) together with the list of sleeps
performed, in order. -/
def fetchDataGo {α : Type} (outcome : Nat → Option α) (delay : Nat) :
    Nat → Nat → Option α × List Nat
  | _, 0 => (none, [])
  | attempt, r + 1 =>
    match outcome attempt with
    | some v => (some v, [])
    | none =>
      if r = 0 then (none, [])
      else
        let rest := fetchDataGo outcome delay (attempt + 1) r
        (rest.1, delay * 2 ^ attempt :: rest.2)

/-- Embedding of `SynonymRetriever._fetch_data url retries delay`
(defaults `retries=3`, `delay=5`); sleeps `delay * 2 ** attempt` after
every failed attempt but the last. -/
def fetch_data {α : Type} (outcome : Nat → Option α) (retries delay : Nat) :
    Option α × List Nat :=
  fetchDataGo outcome delay 0 retries

/-- Embedding of the PMID retry loop of
`CompoundResearchHelper.fetch_articles` at its default
`backoff_factor=2.0` (the sleep `backoff_factor ** attempt` is the
exact natural number `2 ^ attempt` there).  On exhaustion the function
returns `[]` (the caller receives "no data" instead of an exception). -/
def fetchArticlesGo (outcome : Nat → Option (List String)) :
    Nat → Nat → List String × List Nat
  | _, 0 => ([], [])
  | attempt, r + 1 =>
    match outcome attempt with
    | some pmids => (pmids, [])
    | none =>
      if r = 0 then ([], [])
      else
        let rest := fetchArticlesGo outcome (attempt + 1) r
        (rest.1, 2 ^ attempt :: rest.2)

/-- PMID fetch of `fetch_articles` with its retry count (default 3). -/
def fetch_articles_pmids (outcome : Nat → Option (List String)) (retries : Nat) :
    List String × List Nat :=
  fetchArticlesGo outcome 0 retries

/-- Embedding of `app.is_cas_number`:
`re.match(r"^\d{2,7}-\d{2}-\d$", compound)`.  Python's `$` also matches
just before a single trailing newline, which the embedding preserves. -/
def isCasNumber (s : String) : Bool :=
  let cs := s.data
  let d1 := cs.takeWhile Char.isDigit
  let rest := cs.drop d1.length
  decide (2 ≤ d1.length) && decide (d1.length ≤ 7) &&
  (match rest with
   | '-' :: b1 :: b2 :: '-' :: c :: tail =>
     b1.isDigit && b2.isDigit && c.isDigit && (tail == [] || tail == ['\n'])
   | _ => false)

/-- Substring containment on character lists (Python's `in` operator
for strings). -/
def containsSub (needle : List Char) : List Char → Bool
  | [] => needle.isEmpty
  | c :: h => needle.isPrefixOf (c :: h) || containsSub needle h

/-- Failure test used by `app.resolve_compound_name` on a provider's
returned string: `"Error" in s or "An error occurred" in s`.  Every
failure return of `cas_to_iupac_pubchem` and `cas_to_iupac` is a string
satisfying this test. -/
def providerFailed (s : String) : Bool :=
  containsSub "Error".data s.data || containsSub "An error occurred".data s.data

/-- Embedding of `app.resolve_compound_name`.  The two remote
conversions are modelled by their returned strings `pubchemResult`
(from `cas_to_iupac_pubchem`) and `cactusResult` (from `cas_to_iupac`);
a provider has failed exactly when its returned string satisfies
`providerFailed`, the code's own test. -/
def resolve_compound_name (compound pubchemResult cactusResult : String) : String :=
  if isCasNumber compound then
    if providerFailed pubchemResult then
      if providerFailed cactusResult then compound
      else cactusResult
    else pubchemResult
  else compound

/-- Embedding of `CompoundResearchHelper.get_compound_synonyms`; the
provider response (`get_pubchem_synonyms`) is passed explicitly.
Python's `list(set(...))` has implementation-defined order, modelled
here as first-occurrence deduplication. -/
def get_compound_synonyms (compound_name : String)
    (providerSynonyms : List String) : List String :=
  let all_names := clean_text compound_name :: providerSynonyms.map clean_text
  let unique := (all_names.filter (fun n => n ≠ "")).eraseDups
  if unique.isEmpty then [compound_name] else unique

/-- Embedding of the per-compound body of the
`retrieve_compound_synonyms` handler in `app.py`: filter blank
synonyms, truncate to `num_synonyms_per_compound`, and prepend the
resolved name (used alone when nothing survives the filter). -/
def synonymSetEntry (resolved_name : String) (providerSynonyms : List String)
    (cap : Nat) : List String :=
  let synonyms := get_compound_synonyms resolved_name providerSynonyms
  let filtered := synonyms.filter (fun syn => pyStrip syn ≠ "")
  let truncated := filtered.take cap
  if truncated.isEmpty then [resolved_name] else resolved_name :: truncated

/-- Python value at the granularity the validation code inspects. -/
inductive PyVal : Type
  | pstr (s : String) : PyVal
  | pint (n : Int) : PyVal
  | pnone : PyVal
deriving DecidableEq, Repr

/-- Python argument as inspected by `isinstance(x, list)` plus
truthiness: a truthy non-list, a falsy non-list (`None`, `""`, `0`,
...), or a list of values (truthy iff non-empty). -/
inductive PyArg : Type
  | notListTruthy : PyArg
  | notListFalsy : PyArg
  | plist (xs : List PyVal) : PyArg
deriving DecidableEq, Repr

/-- Test for `isinstance(v, str)`. -/
def PyVal.isStr : PyVal → Bool
  | PyVal.pstr _ => true
  | _ => false

/-- Python truthiness of an argument. -/
def PyArg.truthy : PyArg → Bool
  | PyArg.notListTruthy => true
  | PyArg.notListFalsy => false
  | PyArg.plist xs => !xs.isEmpty

/-- Test for `isinstance(x, list) and all(isinstance(c, str) for c in x)`. -/
def PyArg.isListOfStrings : PyArg → Bool
  | PyArg.plist xs => xs.all PyVal.isStr
  | _ => false

/-- String contents of a list argument (total on all arguments). -/
def PyArg.strings : PyArg → List String
  | PyArg.plist xs => xs.filterMap (fun v => match v with
      | PyVal.pstr s => some s
      | _ => none)
  | _ => []

/-- Embedding of `CompoundResearchHelper.process_compound_and_targets`:
input validation, query construction, per-query fetching (`fetch` maps
a query string to the records `fetch_articles` returns for it), and
top-N selection.  The second component is the list of queries built and
executed; a rejected task yields `([], [])`. -/
def process_compound_and_targets (fetch : String → List ArticleRecord)
    (compounds genes : PyArg) (start_year end_year : Int)
    (additional_condition : String) (n_articles : Int)
    (article_type_query : Option String) (fields : List String) :
    List ArticleRecord × List String :=
  if !compounds.isListOfStrings then ([], [])
  else if genes.truthy && !genes.isListOfStrings then ([], [])
  else if start_year > end_year then ([], [])
  else
    let article_type_condition :=
      match article_type_query with
      | some q => if q ≠ "" then format_article_type_filter [q] else ""
      | none => ""
    let queries := buildQueries compounds.strings genes.strings
      additional_condition article_type_condition fields
    let articleList := queries.flatMap fetch
    (if articleList.isEmpty then []
     else select_top_articles articleList n_articles, queries)

/-! Helper lemmas. -/

theorem escapeChars_of_all (cs : List Char)
    (h : ∀ c ∈ cs, (pyWordChar c || pyIsSpace c) = true) : escapeChars cs = cs := by
  induction cs with
  | nil => rfl
  | cons c cs ih =>
    have hc := h c (List.mem_cons_self c cs)
    simp [escapeChars, hc, ih (fun x hx => h x (List.mem_cons_of_mem c hx))]

theorem clean_text_chars {t : String} {c : Char} (hc : c ∈ (clean_text t).data) :
    (pyIsAlnum c || pyIsSpace c) = true := by
  have : c ∈ t.data.filter (fun c => pyIsAlnum c || pyIsSpace c) := hc
  exact (List.mem_filter.mp this).2

theorem escape_pubmed_query_clean (t : String) :
    escape_pubmed_query (clean_text t) = clean_text t := by
  show (⟨escapeChars (clean_text t).data⟩ : String) = clean_text t
  have h : escapeChars (clean_text t).data = (clean_text t).data := by
    apply escapeChars_of_all
    intro c hc
    have h1 : pyIsAlnum c = true ∨ pyIsSpace c = true := by
      simpa using clean_text_chars hc
    rcases h1 with h | h
    · simp [pyWordChar, h]
    · simp [h]
  rw [h]

theorem chunk5_length {α : Type} (l : List α) :
    (chunk5 l).length = (l.length + 4) / 5 := by
  induction l using chunk5.induct
  all_goals simp [chunk5, *]
  all_goals omega

theorem length_flatMap_const {α β : Type} (l : List α) (g : α → List β) (k : Nat)
    (h : ∀ a, (g a).length = k) : (l.flatMap g).length = l.length * k := by
  induction l with
  | nil => simp
  | cons a l ih =>
    simp only [List.flatMap_cons, List.length_append, h, ih, List.length_cons]
    ring

theorem dropDupByPmidAux_sublist (rs : List ArticleRecord) :
    ∀ seen, (dropDupByPmidAux seen rs).Sublist rs := by
  induction rs with
  | nil => intro seen; exact List.Sublist.refl []
  | cons r rs ih =>
    intro seen
    by_cases h : r.pmid ∈ seen
    · simp only [dropDupByPmidAux, if_pos h]
      exact (ih seen).cons r
    · simp only [dropDupByPmidAux, if_neg h]
      exact (ih (r.pmid :: seen)).cons₂ r

theorem dropDupByPmidAux_notin_seen (rs : List ArticleRecord) :
    ∀ seen, ∀ x ∈ dropDupByPmidAux seen rs, x.pmid ∉ seen := by
  induction rs with
  | nil => intro seen x hx; cases hx
  | cons r rs ih =>
    intro seen x hx
    by_cases h : r.pmid ∈ seen
    · rw [dropDupByPmidAux, if_pos h] at hx
      exact ih seen x hx
    · rw [dropDupByPmidAux, if_neg h] at hx
      rcases List.mem_cons.mp hx with rfl | hx
      · exact h
      · intro hmem
        exact ih (r.pmid :: seen) x hx (List.mem_cons_of_mem _ hmem)

theorem dropDupByPmidAux_nodup (rs : List ArticleRecord) :
    ∀ seen, ((dropDupByPmidAux seen rs).map (fun x => x.pmid)).Nodup := by
  induction rs with
  | nil => intro seen; exact List.nodup_nil
  | cons r rs ih =>
    intro seen
    by_cases h : r.pmid ∈ seen
    · rw [dropDupByPmidAux, if_pos h]
      exact ih seen
    · rw [dropDupByPmidAux, if_neg h]
      rw [List.map_cons, List.nodup_cons]
      constructor
      · intro hmem
        rcases List.mem_map.mp hmem with ⟨x, hx, hpx⟩
        apply dropDupByPmidAux_notin_seen rs (r.pmid :: seen) x hx
        rw [hpx]
        exact List.mem_cons_self _ _
      · exact ih (r.pmid :: seen)

theorem dropDupByPmidAux_covers (rs : List ArticleRecord) :
    ∀ seen, ∀ r ∈ rs, r.pmid ∈ seen ∨
      ∃ x ∈ dropDupByPmidAux seen rs, x.pmid = r.pmid := by
  induction rs with
  | nil => intro seen r hr; cases hr
  | cons a rs ih =>
    intro seen r hr
    by_cases h : a.pmid ∈ seen
    · rw [dropDupByPmidAux, if_pos h]
      rcases List.mem_cons.mp hr with heq | hr
      · exact Or.inl (by rw [heq]; exact h)
      · exact ih seen r hr
    · rw [dropDupByPmidAux, if_neg h]
      rcases List.mem_cons.mp hr with heq | hr
      · exact Or.inr ⟨a, List.mem_cons_self _ _, by rw [heq]⟩
      · rcases ih (a.pmid :: seen) r hr with hmem | ⟨x, hx, hpx⟩
        · rcases List.mem_cons.mp hmem with heq | hmem
          · exact Or.inr ⟨a, List.mem_cons_self _ _, heq.symm⟩
          · exact Or.inl hmem
        · exact Or.inr ⟨x, List.mem_cons_of_mem _ hx, hpx⟩

theorem optYearLe_none_right {y : Option Int} (h : optYearLe y none = true) : y = none := by
  cases y with
  | none => rfl
  | some a => exact absurd h (by simp [optYearLe])

theorem range_map_shift (g : Nat → Nat) (m : Nat) :
    (List.range (m + 1)).map g = g 0 :: (List.range m).map (fun j => g (j + 1)) := by
  rw [List.range_succ_eq_map, List.map_cons, List.map_map]
  rfl

theorem fetchDataGo_all_fail {α : Type} (out : Nat → Option α) (delay : Nat) :
    ∀ r attempt, (∀ i, i < r → out (attempt + i) = none) →
      fetchDataGo out delay attempt r
        = (none, (List.range (r - 1)).map (fun j => delay * 2 ^ (attempt + j))) := by
  intro r
  induction r with
  | zero => intro attempt _; rfl
  | succ k ih =>
    intro attempt h
    have h0 : out attempt = none := by simpa using h 0 (Nat.succ_pos k)
    rw [fetchDataGo, h0]
    cases k with
    | zero => simp
    | succ m =>
      have hrec := ih (attempt + 1) (fun i hi => by
        have := h (i + 1) (by omega)
        simpa [Nat.add_assoc, Nat.add_comm 1 i] using this)
      rw [if_neg (Nat.succ_ne_zero m), hrec, Nat.succ_sub_one, Nat.succ_sub_one,
        range_map_shift (fun j => delay * 2 ^ (attempt + j)) m]
      have hmap : (List.range m).map (fun j => delay * 2 ^ (attempt + 1 + j))
          = (List.range m).map (fun j => delay * 2 ^ (attempt + (j + 1))) := by
        apply List.map_congr_left
        intro j _
        have he : attempt + 1 + j = attempt + (j + 1) := by omega
        rw [he]
      rw [hmap]
      simp

theorem fetchArticlesGo_all_fail (out : Nat → Option (List String)) :
    ∀ r attempt, (∀ i, i < r → out (attempt + i) = none) →
      fetchArticlesGo out attempt r
        = ([], (List.range (r - 1)).map (fun j => 2 ^ (attempt + j))) := by
  intro r
  induction r with
  | zero => intro attempt _; rfl
  | succ k ih =>
    intro attempt h
    have h0 : out attempt = none := by simpa using h 0 (Nat.succ_pos k)
    rw [fetchArticlesGo, h0]
    cases k with
    | zero => simp
    | succ m =>
      have hrec := ih (attempt + 1) (fun i hi => by
        have := h (i + 1) (by omega)
        simpa [Nat.add_assoc, Nat.add_comm 1 i] using this)
      rw [if_neg (Nat.succ_ne_zero m), hrec, Nat.succ_sub_one, Nat.succ_sub_one,
        range_map_shift (fun j => 2 ^ (attempt + j)) m]
      have hmap : (List.range m).map (fun j => 2 ^ (attempt + 1 + j))
          = (List.range m).map (fun j => 2 ^ (attempt + (j + 1))) := by
        apply List.map_congr_left
        intro j _
        have he : attempt + 1 + j = attempt + (j + 1) := by omega
        rw [he]
      rw [hmap]
      simp

theorem buildQueries_length (compounds genes : List String) (addc atc : String)
    (fields : List String) :
    (buildQueries compounds genes addc atc fields).length
      = (chunk5 compounds).length * (if genes.isEmpty then 1 else (chunk5 genes).length) := by
  simp only [buildQueries]
  generalize chunk5 compounds = cbs
  by_cases hg : genes.isEmpty = true
  · rw [if_pos hg]
    induction cbs with
    | nil => simp
    | cons cb cbs ih =>
      rw [List.flatMap_cons, List.length_append, ih, if_pos hg]
      simp only [List.length_singleton, List.length_cons, List.length_nil, Nat.mul_one]
      omega
  · rw [if_neg hg]
    induction cbs with
    | nil => simp
    | cons cb cbs ih =>
      rw [List.flatMap_cons, List.length_append, ih, if_neg hg]
      simp only [List.length_map, List.length_cons]
      ring

theorem mem_buildQueries_no_genes {compounds : List String} {addc atc q : String}
    {fields : List String} (hq : q ∈ buildQueries compounds [] addc atc fields) :
    ∃ cb ∈ chunk5 compounds, q = "(" ++ get_batch_query cb fields ++ ")" ++ addc ++ atc := by
  rcases List.mem_flatMap.mp hq with ⟨cb, hcb, hmem⟩
  simp only [List.isEmpty_nil, if_true, List.mem_singleton] at hmem
  exact ⟨cb, hcb, hmem⟩

theorem mem_buildQueries_genes {compounds genes : List String} {addc atc q : String}
    {fields : List String} (hg : genes ≠ [])
    (hq : q ∈ buildQueries compounds genes addc atc fields) :
    ∃ cb ∈ chunk5 compounds, ∃ gb ∈ chunk5 genes,
      q = "((" ++ get_batch_query cb fields ++ ") AND ("
          ++ get_batch_query gb ["Title/Abstract"] ++ "))" ++ addc ++ atc := by
  rcases List.mem_flatMap.mp hq with ⟨cb, hcb, hmem⟩
  have hge : genes.isEmpty = false := by
    cases genes with
    | nil => exact absurd rfl hg
    | cons a l => rfl
  rw [hge] at hmem
  simp only [Bool.false_eq_true, if_false, List.mem_map] at hmem
  rcases hmem with ⟨gb, hgb, hq2⟩
  exact ⟨cb, hcb, gb, hgb, hq2.symm⟩

/-! Claim theorems. -/

/-- C1, counterexample: two records with the same record id but different
titles are records "differing in either component" of the (title, id)
pair, so the claim demands both be retained; `select_top_articles`
(which deduplicates with `drop_duplicates(subset=["pmid"])`) retains
only the first. -/
theorem select_dedup_counterexample :
    select_top_articles [mkRecord "A" "1" none, mkRecord "B" "1" none] 10
      = [mkRecord "A" "1" none]
    ∧ (select_top_articles [mkRecord "A" "1" none, mkRecord "B" "1" none] 10).length ≠ 2 := by
  decide

/-- C1 (amended): the Result Normalizer and Selector deduplicates by the
record id (pmid) alone, keeping the first occurrence encountered: the
deduplicated list is a sublist of the input with pairwise-distinct
pmids covering every input pmid; two records with identical pmid
(in particular two records with identical title and pmid) yield exactly
one retained record, the first, while two records with different pmids
are both retained. -/
theorem select_dedup_by_pmid_spec (rs : List ArticleRecord) (r1 r2 : ArticleRecord) :
    (dropDupByPmid rs).Sublist rs
    ∧ ((dropDupByPmid rs).map (fun x => x.pmid)).Nodup
    ∧ (∀ r ∈ rs, ∃ x ∈ dropDupByPmid rs, x.pmid = r.pmid)
    ∧ (r1.pmid = r2.pmid → dropDupByPmid [r1, r2] = [r1])
    ∧ (r1.pmid ≠ r2.pmid → dropDupByPmid [r1, r2] = [r1, r2]) := by
  refine ⟨dropDupByPmidAux_sublist rs [], dropDupByPmidAux_nodup rs [], ?_, ?_, ?_⟩
  · intro r hr
    rcases dropDupByPmidAux_covers rs [] r hr with hmem | h
    · cases hmem
    · exact h
  · intro h
    simp [dropDupByPmid, dropDupByPmidAux, h]
  · intro h
    simp [dropDupByPmid, dropDupByPmidAux, Ne.symm h]

/-- C1 witness: concrete instances of the two pair conjuncts of
`select_dedup_by_pmid_spec`. -/
theorem select_dedup_by_pmid_spec_witness :
    dropDupByPmid [mkRecord "A" "1" none, mkRecord "C" "1" (some 2020)]
      = [mkRecord "A" "1" none]
    ∧ dropDupByPmid [mkRecord "A" "1" none, mkRecord "B" "2" none]
      = [mkRecord "A" "1" none, mkRecord "B" "2" none] := by
  exact ⟨(select_dedup_by_pmid_spec [] (mkRecord "A" "1" none)
      (mkRecord "C" "1" (some 2020))).2.2.2.1 (by decide),
    (select_dedup_by_pmid_spec [] (mkRecord "A" "1" none)
      (mkRecord "B" "2" none)).2.2.2.2 (by decide)⟩

/-- C2, counterexample: with a configured cap of 1 and one provider
synonym, the handler produces a SynonymSet of size 2, exceeding the
cap; the size bound of the claim is false. -/
theorem synonym_cap_counterexample :
    synonymSetEntry "X" ["A"] 1 = ["X", "X"]
    ∧ ¬ ((synonymSetEntry "X" ["A"] 1).length ≤ 1) := by
  decide

/-- C2 (amended): the produced SynonymSet always has the canonical
(resolved) name as its first element — also when the providers return
no synonyms — and its total size never exceeds the configured cap plus
one (the cap limits the appended synonyms, not the prepended canonical
name). -/
theorem synonym_set_entry_spec (resolved : String) (providerSyns : List String)
    (cap : Nat) :
    (synonymSetEntry resolved providerSyns cap).head? = some resolved
    ∧ (synonymSetEntry resolved providerSyns cap).length ≤ cap + 1 := by
  simp only [synonymSetEntry]
  split
  · exact ⟨rfl, by simp⟩
  · refine ⟨rfl, ?_⟩
    simp only [List.length_cons]
    have := List.length_take_le cap
      ((get_compound_synonyms resolved providerSyns).filter (fun syn => decide (pyStrip syn ≠ "")))
    omega

/-- C4 (confirmed): year normalization keeps an integer year, converts a
string starting with four digits to the integer those four digits
denote, and yields absent for a missing year, the empty string, and any
string with no leading four-digit run; the function is total, so
normalization never raises. -/
theorem year_normalization_spec (n : Int) (s : String) (a b c d : Char)
    (rest : List Char) :
    normalizeYear (RawYear.intVal n) = some n
    ∧ normalizeYear RawYear.noneVal = none
    ∧ normalizeYear (RawYear.strVal "") = none
    ∧ (a.isDigit = true → b.isDigit = true → c.isDigit = true → d.isDigit = true →
        normalizeYear (RawYear.strVal ⟨a :: b :: c :: d :: rest⟩)
          = some ((((((a.toNat - 48) * 10 + (b.toNat - 48)) * 10 + (c.toNat - 48)) * 10
              + (d.toNat - 48) : Nat) : Int)))
    ∧ (leadingFourDigits s = none → normalizeYear (RawYear.strVal s) = none) := by
  refine ⟨rfl, rfl, by simp [normalizeYear], ?_, ?_⟩
  · intro ha hb hc hd
    have hne : (⟨a :: b :: c :: d :: rest⟩ : String) ≠ "" := by
      intro hcon
      have hdata := congrArg String.data hcon
      simp at hdata
    simp only [normalizeYear]
    rw [if_neg hne]
    simp [leadingFourDigits, ha, hb, hc, hd]
  · intro h
    by_cases hs : s = ""
    · simp [normalizeYear, hs]
    · simp only [normalizeYear]
      rw [if_neg hs]
      exact h

/-- C4 witness: the concrete normalizations named by the claim. -/
theorem year_normalization_spec_witness :
    normalizeYear (RawYear.intVal 2020) = some 2020
    ∧ normalizeYear (RawYear.strVal "2019 Jan") = some 2019
    ∧ normalizeYear (RawYear.strVal "bad") = none
    ∧ normalizeYear RawYear.noneVal = none := by
  have h := year_normalization_spec 2020 "bad" '2' '0' '1' '9' (" Jan".data)
  refine ⟨h.1, ?_, h.2.2.2.2 (by decide), h.2.1⟩
  have h4 := h.2.2.2.1 (by decide) (by decide) (by decide) (by decide)
  have hs : RawYear.strVal (⟨'2' :: '0' :: '1' :: '9' :: (" Jan".data)⟩ : String)
      = RawYear.strVal "2019 Jan" := by decide
  rw [hs] at h4
  exact h4.trans (by decide)

/-- C7 (confirmed): `resolve_compound_name` returns its input unchanged
when the input is not CAS-shaped, and likewise when the input is
CAS-shaped but both the primary (PubChem) and fallback (CACTUS)
resolutions fail, failure being signalled by the error-shaped strings
those providers return. -/
theorem resolve_compound_name_spec (compound pub cac : String) :
    (isCasNumber compound = false → resolve_compound_name compound pub cac = compound)
    ∧ (isCasNumber compound = true → providerFailed pub = true →
        providerFailed cac = true →
        resolve_compound_name compound pub cac = compound) := by
  constructor
  · intro h
    simp [resolve_compound_name, h]
  · intro h hp hc
    simp [resolve_compound_name, h, hp, hc]

/-- C7 witness: a non-CAS input and a CAS input with both providers
failing, both returned unchanged. -/
theorem resolve_compound_name_spec_witness :
    resolve_compound_name "Aspirin" "2-acetyloxybenzoic acid" "x" = "Aspirin"
    ∧ resolve_compound_name "50-00-0"
        "Error: PubChem service unavailable after multiple attempts."
        "Error: Unable to retrieve IUPAC name (HTTP Status Code: 503)" = "50-00-0" := by
  exact ⟨(resolve_compound_name_spec "Aspirin" _ _).1 (by decide),
    (resolve_compound_name_spec "50-00-0" _ _).2 (by decide) (by decide) (by decide)⟩

/-- C5 (confirmed): `select_top_articles` orders the deduplicated
records by year descending with every absent-year record placed last
(the sorted list is a permutation of the deduplicated input, sorted for
`yearDescLe`, and no record with a year follows an absent-year record),
returns the first `n` records of that order when `n > 0`, and returns
the empty result for every `n ≤ 0` regardless of input size. -/
theorem select_top_articles_spec (rs : List ArticleRecord) (n : Int) :
    List.Sorted yearDescLe (List.insertionSort yearDescLe (dropDupByPmid rs))
    ∧ (List.insertionSort yearDescLe (dropDupByPmid rs)).Perm (dropDupByPmid rs)
    ∧ List.Pairwise (fun a b => a.year = none → b.year = none)
        (List.insertionSort yearDescLe (dropDupByPmid rs))
    ∧ (0 < n → select_top_articles rs n
        = (List.insertionSort yearDescLe (dropDupByPmid rs)).take n.toNat)
    ∧ (n ≤ 0 → select_top_articles rs n = []) := by
  refine ⟨List.sorted_insertionSort yearDescLe _,
    List.perm_insertionSort yearDescLe _, ?_, ?_, ?_⟩
  · refine (List.sorted_insertionSort yearDescLe _).imp ?_
    intro a b hab ha
    unfold yearDescLe at hab
    rw [ha] at hab
    exact optYearLe_none_right hab
  · intro hn
    simp only [select_top_articles]
    rw [if_pos hn]
  · intro hn
    simp only [select_top_articles]
    rw [if_neg (by omega : ¬ n > 0)]

/-- C5 witness: on a concrete mixed list with `n = 1` the selector
returns the single most recent record, and with `n = 0` it returns the
empty list. -/
theorem select_top_articles_spec_witness :
    select_top_articles [mkRecord "A" "1" none, mkRecord "B" "2" (some 2020)] 1
      = [mkRecord "B" "2" (some 2020)]
    ∧ select_top_articles [mkRecord "A" "1" none, mkRecord "B" "2" (some 2020)] 0 = [] := by
  exact ⟨((select_top_articles_spec
        [mkRecord "A" "1" none, mkRecord "B" "2" (some 2020)] 1).2.2.2.1
      (by decide)).trans (by decide),
    (select_top_articles_spec
        [mkRecord "A" "1" none, mkRecord "B" "2" (some 2020)] 0).2.2.2.2 (by decide)⟩

/-- C6 (confirmed): when every attempt of a retried remote call fails,
both retry loops (`SynonymRetriever._fetch_data` with base delay
`delay`, and the PMID fetch of `fetch_articles` with its default
backoff factor 2, i.e. base delay 1) sleep `base_delay * 2 ^ attempt`
before attempt `attempt + 1` for each attempt but the last, and after
exhausting all retries return a no-data value (`none` resp. `[]`)
instead of raising. -/
theorem retry_backoff_spec {α : Type} (out1 : Nat → Option α)
    (out2 : Nat → Option (List String)) (retries delay : Nat)
    (h1 : ∀ i, i < retries → out1 i = none)
    (h2 : ∀ i, i < retries → out2 i = none) :
    fetch_data out1 retries delay
      = (none, (List.range (retries - 1)).map (fun attempt => delay * 2 ^ attempt))
    ∧ fetch_articles_pmids out2 retries
      = ([], (List.range (retries - 1)).map (fun attempt => 2 ^ attempt)) := by
  constructor
  · have h := fetchDataGo_all_fail out1 delay retries 0 (fun i hi => by simpa using h1 i hi)
    simpa using h
  · have h := fetchArticlesGo_all_fail out2 retries 0 (fun i hi => by simpa using h2 i hi)
    simpa using h

/-- C6 witness: with the configured defaults (3 retries, base delay 5
for the synonym fetcher and base delay 1 for the PMID fetcher) and all
attempts failing, the sleep schedules are [5, 10] and [1, 2] and the
results are no-data values. -/
theorem retry_backoff_spec_witness :
    fetch_data (fun _ => (none : Option Nat)) 3 5 = (none, [5, 10])
    ∧ fetch_articles_pmids (fun _ => none) 3 = ([], [1, 2]) := by
  have h := retry_backoff_spec (fun _ => (none : Option Nat)) (fun _ => none) 3 5
    (fun _ _ => rfl) (fun _ _ => rfl)
  exact ⟨h.1.trans (by decide), h.2.trans (by decide)⟩

/-- C3 (confirmed): with the hard-coded batch size 5 and no targets,
query construction produces exactly `ceil(|compounds| / 5)` queries,
each an OR-expression over one field-tagged clause per (synonym, field)
pair of its chunk wrapped with the appended conditions; with targets
present it produces exactly `ceil(|compounds| / 5) * ceil(|targets| / 5)`
queries, one per (compound-chunk, target-chunk) pair, with the compound
sub-expression AND-combined with the target sub-expression.  (Recall
`ceil(n / 5) = (n + 4) / 5` in natural division.) -/
theorem build_batches_spec (compounds genes : List String) (addc atc : String)
    (fields : List String) :
    (genes = [] → (buildQueries compounds genes addc atc fields).length
        = (compounds.length + 4) / 5)
    ∧ (genes ≠ [] → (buildQueries compounds genes addc atc fields).length
        = ((compounds.length + 4) / 5) * ((genes.length + 4) / 5))
    ∧ (genes = [] → ∀ q ∈ buildQueries compounds genes addc atc fields,
        ∃ cb ∈ chunk5 compounds,
          q = "(" ++ get_batch_query cb fields ++ ")" ++ addc ++ atc)
    ∧ (genes ≠ [] → ∀ q ∈ buildQueries compounds genes addc atc fields,
        ∃ cb ∈ chunk5 compounds, ∃ gb ∈ chunk5 genes,
          q = "((" ++ get_batch_query cb fields ++ ") AND ("
              ++ get_batch_query gb ["Title/Abstract"] ++ "))" ++ addc ++ atc)
    ∧ (∀ terms : List String,
        get_batch_query terms fields = String.intercalate " OR "
          (terms.flatMap (fun t => fields.map
            (fun f => fieldClause (escape_pubmed_query (clean_text t)) f)))
        ∧ (terms.flatMap (fun t => fields.map
            (fun f => fieldClause (escape_pubmed_query (clean_text t)) f))).length
          = terms.length * fields.length) := by
  refine ⟨?_, ?_, ?_, ?_, ?_⟩
  · intro h
    subst h
    rw [buildQueries_length]
    simp [chunk5_length]
  · intro h
    have hg : genes.isEmpty = false := by
      cases genes with
      | nil => exact absurd rfl h
      | cons a l => rfl
    rw [buildQueries_length, hg]
    simp [chunk5_length]
  · intro h
    subst h
    exact fun q hq => mem_buildQueries_no_genes hq
  · intro h
    exact fun q hq => mem_buildQueries_genes h hq
  · intro terms
    exact ⟨rfl, length_flatMap_const terms
      (fun t => fields.map (fun f => fieldClause (escape_pubmed_query (clean_text t)) f))
      fields.length (fun a => by simp)⟩

/-- C3 witness: 12 compounds without targets give exactly 3 queries over
chunks of sizes 5, 5 and 2; 6 compounds with 7 targets give exactly
`2 * 2 = 4` queries. -/
theorem build_batches_spec_witness :
    (buildQueries ["a1", "a2", "a3", "a4", "a5", "a6", "a7", "a8", "a9", "a10", "a11", "a12"]
      [] "" "" ["Title/Abstract"]).length = 3
    ∧ (chunk5 ["a1", "a2", "a3", "a4", "a5", "a6", "a7", "a8", "a9", "a10", "a11", "a12"]).map
        List.length = [5, 5, 2]
    ∧ (buildQueries ["a1", "a2", "a3", "a4", "a5", "a6"]
        ["g1", "g2", "g3", "g4", "g5", "g6", "g7"] "" "" ["Title/Abstract"]).length = 4 := by
  refine ⟨((build_batches_spec _ [] "" "" ["Title/Abstract"]).1 rfl).trans (by decide),
    by decide,
    ((build_batches_spec _ _ "" "" ["Title/Abstract"]).2.1 (by decide)).trans (by decide)⟩

/-- C8 (confirmed): a task whose compounds argument is not a list of
strings, or whose targets argument is truthy (non-empty) but not a list
of strings, or whose start year is after its end year, is rejected
immediately with an empty result and an empty list of built or executed
queries. -/
theorem validation_spec (fetch : String → List ArticleRecord)
    (compounds genes : PyArg) (start_year end_year : Int)
    (additional_condition : String) (n_articles : Int)
    (article_type_query : Option String) (fields : List String)
    (h : compounds.isListOfStrings = false
       ∨ (genes.truthy = true ∧ genes.isListOfStrings = false)
       ∨ start_year > end_year) :
    process_compound_and_targets fetch compounds genes start_year end_year
      additional_condition n_articles article_type_query fields = ([], []) := by
  rcases h with h | ⟨h1, h2⟩ | h
  · simp [process_compound_and_targets, h]
  · cases hc : compounds.isListOfStrings
    · simp [process_compound_and_targets, hc]
    · simp [process_compound_and_targets, hc, h1, h2]
  · cases hc : compounds.isListOfStrings
    · simp [process_compound_and_targets, hc]
    · cases hg : (genes.truthy && !genes.isListOfStrings)
      · simp [process_compound_and_targets, hc, hg, h]
      · simp [process_compound_and_targets, hc, hg]

/-- C8 witness: a task with a non-string compound entry is rejected
with empty result and no queries. -/
theorem validation_spec_witness :
    process_compound_and_targets (fun _ => []) (PyArg.plist [PyVal.pint 1])
      (PyArg.plist []) 2000 2020 "" 10 none ["Title/Abstract"] = ([], []) := by
  exact validation_spec (fun _ => []) (PyArg.plist [PyVal.pint 1]) (PyArg.plist [])
    2000 2020 "" 10 none ["Title/Abstract"] (Or.inl (by decide))

/-- C9 (confirmed): the publication-type clause is built from exactly
the requested types whose lowercased form is in the allow-list
{review, clinical trial, case reports}; when no requested type is
allowed the clause is empty and the generated queries are unchanged,
and the clause (empty or not) is a suffix of every generated query. -/
theorem article_type_filter_spec (types : List String) (compounds genes : List String)
    (addc : String) (fields : List String) :
    (types.filter articleTypeAllowed = [] →
        format_article_type_filter types = ""
        ∧ buildQueries compounds genes addc (format_article_type_filter types) fields
            = buildQueries compounds genes addc "" fields)
    ∧ (types.filter articleTypeAllowed ≠ [] →
        format_article_type_filter types
          = " AND (" ++ String.intercalate " OR "
              ((types.filter articleTypeAllowed).map (· ++ "[Publication Type]")) ++ ")")
    ∧ (∀ t, articleTypeAllowed t = true ↔ pyLower t ∈ allowedArticleTypes)
    ∧ (∀ q ∈ buildQueries compounds genes addc (format_article_type_filter types) fields,
        ∃ core : String, q = core ++ format_article_type_filter types) := by
  refine ⟨?_, ?_, ?_, ?_⟩
  · intro hfil
    have h0 : format_article_type_filter types = "" := by
      simp [format_article_type_filter, hfil]
    exact ⟨h0, by rw [h0]⟩
  · intro hfil
    cases hf : types.filter articleTypeAllowed with
    | nil => exact absurd hf hfil
    | cons a l => simp [format_article_type_filter, hf]
  · intro t
    simp [articleTypeAllowed]
  · intro q hq
    rcases List.mem_flatMap.mp hq with ⟨cb, hcb, hmem⟩
    cases hg : genes.isEmpty
    · rw [hg] at hmem
      simp only [Bool.false_eq_true, if_false, List.mem_map] at hmem
      rcases hmem with ⟨gb, hgb, hq2⟩
      exact ⟨"((" ++ get_batch_query cb fields ++ ") AND ("
          ++ get_batch_query gb ["Title/Abstract"] ++ "))" ++ addc, hq2.symm⟩
    · rw [hg] at hmem
      simp at hmem
      exact ⟨"(" ++ get_batch_query cb fields ++ ")" ++ addc, hmem⟩

/-- C9 witness: one allowed and one unrecognized type keep exactly the
allowed one; an unrecognized type alone yields no clause and leaves the
queries unchanged. -/
theorem article_type_filter_spec_witness :
    format_article_type_filter ["Review", "editorial"]
      = " AND (Review[Publication Type])"
    ∧ format_article_type_filter ["editorial"] = ""
    ∧ buildQueries ["a"] [] " kw" (format_article_type_filter ["editorial"]) ["F"]
      = buildQueries ["a"] [] " kw" "" ["F"] := by
  refine ⟨?_, ?_, ?_⟩
  · exact ((article_type_filter_spec ["Review", "editorial"] [] [] "" []).2.1
      (by decide)).trans (by decide)
  · exact ((article_type_filter_spec ["editorial"] [] [] "" []).1 (by decide)).1
  · exact ((article_type_filter_spec ["editorial"] ["a"] [] " kw" ["F"]).1 (by decide)).2

/-- C10 (confirmed): `_clean_text` removes every character that is
neither alphanumeric nor whitespace, so `_escape_pubmed_query` is the
identity on every cleaned term; consequently each synonym occurrence
inserted by `get_batch_query` is the cleaned term itself, containing
only alphanumeric and whitespace characters and no backslash escapes. -/
theorem clean_escape_spec (t : String) (terms fields : List String) :
    escape_pubmed_query (clean_text t) = clean_text t
    ∧ (∀ c ∈ (clean_text t).data, (pyIsAlnum c || pyIsSpace c) = true)
    ∧ (∀ c ∈ (clean_text t).data, c ≠ '\\')
    ∧ get_batch_query terms fields = String.intercalate " OR "
        (terms.flatMap (fun s => fields.map (fun f => fieldClause (clean_text s) f))) := by
  refine ⟨escape_pubmed_query_clean t, fun c hc => clean_text_chars hc, ?_, ?_⟩
  · intro c hc hcon
    have h := clean_text_chars hc
    rw [hcon] at h
    exact absurd h (by decide)
  · have hfun : (fun s => fields.map
        (fun f => fieldClause (escape_pubmed_query (clean_text s)) f))
        = (fun s => fields.map (fun f => fieldClause (clean_text s) f)) := by
      funext s
      rw [escape_pubmed_query_clean s]
    simp only [get_batch_query]
    rw [hfun]

/-- C10 witness: a term with punctuation is cleaned to alphanumerics
and spaces and then escaped to itself, and a concrete batch query uses
the cleaned synonym verbatim. -/
theorem clean_escape_spec_witness :
    escape_pubmed_query (clean_text "beta-blocker (oral)!") = clean_text "beta-blocker (oral)!"
    ∧ clean_text "beta-blocker (oral)!" = "betablocker oral"
    ∧ get_batch_query ["a-b"] ["F"] = String.intercalate " OR "
        ((["a-b"]).flatMap (fun s => (["F"]).map (fun f => fieldClause (clean_text s) f))) := by
  exact ⟨(clean_escape_spec "beta-blocker (oral)!" [] []).1, by decide,
    (clean_escape_spec "x" ["a-b"] ["F"]).2.2.2⟩

end ChemInsight
